import Mathlib

/-!
Event log of the home-security controller

A shallow embedding of `modules/event_log/event_log.cpp` and of
`sdCardWriteFile` from `modules/sd_card/sd_card.cpp`.

Conventions of the embedding

* The module's globals are the fields of `State`; every C function that touches
  them takes the state and returns the new one.
* `pcSerialComStringWrite` / `pcSerialComIntWrite` append one item to the
  console transcript `State.serial`.
* `time(NULL)`, `ctime`, `strftime`/`localtime`, the sensor reads, the timer
  `eventTimer` and the outcome of `fopen` belong to the environment and are
  arguments.  Floating-point values enter only as what the environment hands
  over: the text `pcSerialComFloatWrite` prints and the truncated product
  `(int)(rawDelay * 1000)`.
* The macros `EVENT_LOG_MAX_STORAGE` and `EVENT_STR_LENGTH` come from headers
  that are not part of the sources at hand; they are the parameters `c` and
  `strLen`.  Character buffers are taken to be large enough for what is
  concatenated into them (`EVENT_LOG_NAME_MAX_LENGTH`,
  `SD_CARD_FILENAME_MAX_LENGTH`), the one exception being the explicit bound of
  `snprintf` on `fullPath[128]`, which is modelled.
* `eventsIndex` is an `int` that starts at 0 and is only incremented below
  `EVENT_LOG_MAX_STORAGE - 1` or reset to 0, so it is a `Nat` here.
-/

namespace EventLog

/-! ## Data model -/

/-- The record type `systemEvent_t`. -/
structure systemEvent where
  seconds : Int
  typeOfEvent : String
deriving DecidableEq, Repr

/-- The globals of `event_log.cpp` together with the console transcript. -/
structure State where
  sirenLastState : Bool
  gasLastState : Bool
  tempLastState : Bool
  ICLastState : Bool
  SBLastState : Bool
  motionLastState : Bool
  eventsIndex : Nat
  arrayOfStoredEvents : List systemEvent
  eventsStored : Bool
  eventRead : Bool
  serial : List String
deriving DecidableEq, Repr

/-- The state at start-up: every last state `OFF`, index 0, the static array
zero-initialised (`c` slots), both flags `false`, nothing printed yet. -/
def init (c : Nat) : State :=
  { sirenLastState := false
    gasLastState := false
    tempLastState := false
    ICLastState := false
    SBLastState := false
    motionLastState := false
    eventsIndex := 0
    arrayOfStoredEvents := List.replicate c ⟨0, ""⟩
    eventsStored := false
    eventRead := false
    serial := [] }

/-- The console sink `pcSerialComStringWrite`. -/
def pcSerialComStringWrite (s : String) (st : State) : State :=
  { st with serial := st.serial ++ [s] }

/-- The console sink `pcSerialComIntWrite` (decimal rendering). -/
def pcSerialComIntWrite (n : Nat) (st : State) : State :=
  { st with serial := st.serial ++ [toString n] }

/-- The console sink `pcSerialComFloatWrite`; `rendered` is the text it prints
for its argument. -/
def pcSerialComFloatWrite (rendered : String) (st : State) : State :=
  { st with serial := st.serial ++ [rendered] }

/-! ## The circular buffer -/

/-- The local buffer `eventAndStateStr` of `eventLogWrite` after the two
`strcat`s. -/
def eventAndStateStr (currentState : Bool) (elementName : String) : String :=
  ("" ++ elementName) ++ (if currentState then "_ON" else "_OFF")

/-- Embedding of `eventLogWrite`; `now` is what `time(NULL)` returns. -/
def eventLogWrite (c : Nat) (now : Int) (currentState : Bool) (elementName : String)
    (st : State) : State :=
  let str := eventAndStateStr currentState elementName
  let st1 : State :=
    { st with
      arrayOfStoredEvents :=
        st.arrayOfStoredEvents.set st.eventsIndex { seconds := now, typeOfEvent := str } }
  let st2 : State :=
    if st1.eventsIndex < c - 1 then { st1 with eventsIndex := st1.eventsIndex + 1 }
    else { st1 with eventsIndex := 0 }
  pcSerialComStringWrite "\r\n" (pcSerialComStringWrite str st2)

/-- Embedding of `eventLogNumberOfStoredEvents`. -/
def eventLogNumberOfStoredEvents (st : State) : Nat :=
  st.eventsIndex

/-- The slot `arrayOfStoredEvents[index]`.  An index outside the array is
undefined behaviour in C; the embedding then yields the zero record (no caller
in this file reads outside the array). -/
def slot (st : State) (index : Nat) : systemEvent :=
  st.arrayOfStoredEvents.getD index ⟨0, ""⟩

/-- Embedding of `eventLogRead`: the text left in `str`.  `ctime` is the
calendar rendering of the C library. -/
def eventLogRead (ctime : Int → String) (index : Nat) (st : State) : String :=
  (((("" ++ "Event = ") ++ (slot st index).typeOfEvent) ++ "\r\nDate and Time = ")
    ++ ctime (slot st index).seconds) ++ "\r\n"

/-- One call of `eventLogWrite` as data: time, state, element name. -/
structure WriteCall where
  now : Int
  currentState : Bool
  elementName : String
deriving DecidableEq, Repr

/-- The record a call of `eventLogWrite` stores. -/
def WriteCall.record (w : WriteCall) : systemEvent :=
  { seconds := w.now, typeOfEvent := eventAndStateStr w.currentState w.elementName }

/-- A sequence of calls of `eventLogWrite`, first call first. -/
def writeAll (c : Nat) : List WriteCall → State → State
  | [], st => st
  | w :: ws, st => writeAll c ws (eventLogWrite c w.now w.currentState w.elementName st)

/-! ## Change detection -/

/-- Embedding of the private `eventLogElementStateUpdate`. -/
def eventLogElementStateUpdate (c : Nat) (now : Int) (lastState currentState : Bool)
    (elementName : String) (st : State) : State :=
  if lastState != currentState then eventLogWrite c now currentState elementName st else st

/-- The six monitored signals, in the order `eventLogUpdate` polls them. -/
inductive Signal where
  | siren
  | gas
  | temp
  | ic
  | sb
  | motion
deriving DecidableEq, Repr

/-- What the environment answers during one call of `eventLogUpdate`: the
light level read (`lightLevelText` is how `pcSerialComFloatWrite` prints
`rawDelay`, `lightLevelMilli` is `(int)(rawDelay * 1000)` for the analog
reading), the count of `eventTimer.elapsed_time()` in microseconds, the six
state reads and, for each signal, what `time(NULL)` returns should its event be
written. -/
structure Inputs where
  lightLevelText : String
  lightLevelMilli : Nat
  elapsed : Nat
  sirenStateRead : Bool
  gasDetectorStateRead : Bool
  overTemperatureDetectorStateRead : Bool
  incorrectCodeStateRead : Bool
  systemBlockedStateRead : Bool
  motionSensorRead : Bool
  time : Signal → Int

/-- The element name `eventLogUpdate` passes for a signal. -/
def Signal.elementName : Signal → String
  | .siren => "ALARM"
  | .gas => "GAS_DET"
  | .temp => "OVER_TEMP"
  | .ic => "LED_IC"
  | .sb => "LED_SB"
  | .motion => "MOTION"

/-- The polled value of a signal. -/
def Inputs.read (env : Inputs) : Signal → Bool
  | .siren => env.sirenStateRead
  | .gas => env.gasDetectorStateRead
  | .temp => env.overTemperatureDetectorStateRead
  | .ic => env.incorrectCodeStateRead
  | .sb => env.systemBlockedStateRead
  | .motion => env.motionSensorRead

/-- The last-state variable of a signal. -/
def State.lastState (st : State) : Signal → Bool
  | .siren => st.sirenLastState
  | .gas => st.gasLastState
  | .temp => st.tempLastState
  | .ic => st.ICLastState
  | .sb => st.SBLastState
  | .motion => st.motionLastState

/-- The function-static `delay` of `eventLogUpdate`, in seconds: it is never
assigned, so it keeps the zero of static initialisation. -/
def delay : Int :=
  0

/-- Embedding of `eventLogUpdate`: the console banner of every call, the timer
gate, and the polling of the six signals.  Starting and resetting `eventTimer`
and the three `sleep_for` calls act on the environment only, which answers with
`env.elapsed`; the gate compares that count with `delay * 1e6`. -/
def eventLogUpdate (c : Nat) (env : Inputs) (st : State) : State :=
  let mappedDelayMs := 100 + env.lightLevelMilli
  let st := pcSerialComStringWrite "Potentiometer Value = " st
  let st := pcSerialComFloatWrite env.lightLevelText st
  let st := pcSerialComStringWrite " | Delay = " st
  let st := pcSerialComIntWrite mappedDelayMs st
  let st := pcSerialComStringWrite " ms\r\n" st
  let st := pcSerialComStringWrite "ALARM_ON\r\n" st
  let st := pcSerialComStringWrite "GAS_DET\r\n" st
  let st := pcSerialComStringWrite "OVER_TEMP\r\n" st
  if (env.elapsed : Int) < delay * 1000000 then st
  else
    let currentState := env.sirenStateRead
    let st := eventLogElementStateUpdate c (env.time .siren) st.sirenLastState currentState "ALARM" st
    let st := { st with sirenLastState := currentState }
    let currentState := env.gasDetectorStateRead
    let st := eventLogElementStateUpdate c (env.time .gas) st.gasLastState currentState "GAS_DET" st
    let st := { st with gasLastState := currentState }
    let currentState := env.overTemperatureDetectorStateRead
    let st :=
      eventLogElementStateUpdate c (env.time .temp) st.tempLastState currentState "OVER_TEMP" st
    let st := { st with tempLastState := currentState }
    let currentState := env.incorrectCodeStateRead
    let st := eventLogElementStateUpdate c (env.time .ic) st.ICLastState currentState "LED_IC" st
    let st := { st with ICLastState := currentState }
    let currentState := env.systemBlockedStateRead
    let st := eventLogElementStateUpdate c (env.time .sb) st.SBLastState currentState "LED_SB" st
    let st := { st with SBLastState := currentState }
    let currentState := env.motionSensorRead
    let st :=
      eventLogElementStateUpdate c (env.time .motion) st.motionLastState currentState "MOTION" st
    { st with motionLastState := currentState }

/-- Successive calls of `eventLogUpdate`, first call first. -/
def pollAll (c : Nat) : List Inputs → State → State
  | [], st => st
  | env :: envs, st => pollAll c envs (eventLogUpdate c env st)

/-! ## Storage: writing -/

/-- The storage as `sdCardWriteFile` sees it: the content behind each path, and
a journal of the requests made (file name and buffer of every call), kept for
stating what a caller issued. -/
structure SdCard where
  files : List (String × String)
  journal : List (String × String)
deriving DecidableEq, Repr

/-- Opening a path in mode "a" and printing a buffer: the buffer goes to the
end of the file, which is created when missing. -/
def fileAppend (path buffer : String) : List (String × String) → List (String × String)
  | [] => [(path, buffer)]
  | f :: fs => if f.1 == path then (f.1, f.2 ++ buffer) :: fs else f :: fileAppend path buffer fs

/-- Embedding of `sdCardWriteFile`; `fopenOk` says whether `fopen` returns a
non-null pointer. -/
def sdCardWriteFile (fopenOk : Bool) (fileName writeBuffer : String) (sd : SdCard) :
    Bool × SdCard :=
  let fileNameSD := ("" ++ "/sd/") ++ fileName
  let sd := { sd with journal := sd.journal ++ [(fileName, writeBuffer)] }
  if fopenOk then
    (true, { sd with files := fileAppend fileNameSD writeBuffer sd.files })
  else
    (false, sd)

/-- The `for` loop of `eventLogSaveToSdCard`, from index `i` on; `todo` bounds
the iterations left (the caller passes the number of stored events, which the
body does not change).  `fopenOk i` is the outcome of `fopen` in iteration
`i`. -/
def saveLoop (ctime : Int → String) (fopenOk : Nat → Bool) (fileName : String) :
    Nat → Nat → State → SdCard → State × SdCard
  | 0, _, st, sd => (st, sd)
  | todo + 1, i, st, sd =>
    if i < eventLogNumberOfStoredEvents st then
      let eventStr := eventLogRead ctime i st
      let r := sdCardWriteFile (fopenOk i) fileName eventStr sd
      if r.1 then
        let st := pcSerialComStringWrite "Storing event " st
        let st := pcSerialComIntWrite (i + 1) st
        let st := pcSerialComStringWrite " in file " st
        let st := pcSerialComStringWrite fileName st
        let st := pcSerialComStringWrite "\r\n" st
        let st := { st with eventsStored := true }
        saveLoop ctime fopenOk fileName todo (i + 1) st r.2
      else
        saveLoop ctime fopenOk fileName todo (i + 1) st r.2
    else (st, sd)

/-- Embedding of `eventLogSaveToSdCard`.  `now` is what `time(NULL)` returns,
`strftime now` the rendering of `localtime(&seconds)` under the pattern
`%Y_%m_%d_%H_%M_%S`. -/
def eventLogSaveToSdCard (ctime strftime : Int → String) (now : Int) (fopenOk : Nat → Bool)
    (st : State) (sd : SdCard) : Bool × State × SdCard :=
  let fileName := strftime now ++ ".txt"
  let r := saveLoop ctime fopenOk fileName (eventLogNumberOfStoredEvents st) 0 st sd
  let st := r.1
  let st :=
    if st.eventsStored then
      pcSerialComStringWrite "File successfully written\r\n\r\n" st
    else
      pcSerialComStringWrite "or SD card is not available\r\n\r\n"
        (pcSerialComStringWrite "There are no events to store " st)
  (true, st, r.2)

/-! ## Storage: reading back -/

/-- C `strlen` on a buffer that may hold NUL bytes: the bytes before the
first NUL. -/
def strlen (s : String) : Nat :=
  (s.data.takeWhile (fun ch => ch != Char.ofNat 0)).length

/-- Embedding of `eventLogLoadFromString`. -/
def eventLogLoadFromString (eventStr : String) : Bool :=
  decide (strlen eventStr > 0)

/-- C `strstr` on character lists: the tail of the haystack that starts with
the first occurrence of the needle, or `none` for the null pointer. -/
def strstrChars (needle : List Char) : List Char → Option (List Char)
  | [] => if needle.isEmpty then some [] else none
  | ch :: rest =>
    if needle.isPrefixOf (ch :: rest) then some (ch :: rest) else strstrChars needle rest

/-- C `strstr`. -/
def strstr (haystack needle : String) : Option (List Char) :=
  strstrChars needle.data haystack.data

/-- The path `snprintf(fullPath, sizeof(fullPath), "%s/%s", "/sd/", d_name)`
leaves in the 128-byte buffer: at most 127 characters. -/
def fullPath (d_name : String) : String :=
  String.mk (((("/sd/" ++ "/") ++ d_name).data).take 127)

/-- The storage as `eventLogReadFileFromSdCard` sees it: the entry names
`readdir` yields for `/sd/` (`none` when `opendir` fails), and for each path
the bytes `fopen`/`fread` deliver (`none` when `fopen` fails). -/
structure SdRoot where
  opendir : Option (List String)
  fopen : String → Option String

/-- The body of the `while` loop of `eventLogReadFileFromSdCard` for one
directory entry. -/
def scanEntry (strLen : Nat) (sd : SdRoot) (d_name : String) (st : State) : State :=
  if (strstr d_name ".txt").isSome then
    let path := fullPath d_name
    match sd.fopen path with
    | none =>
      pcSerialComStringWrite "\r\n"
        (pcSerialComStringWrite path (pcSerialComStringWrite "Failed to open file " st))
    | some bytes =>
      let eventStr := String.mk (bytes.data.take (strLen - 1))
      if eventLogLoadFromString eventStr then
        let st := pcSerialComStringWrite "Read events from file " st
        let st := pcSerialComStringWrite path st
        let st := pcSerialComStringWrite "\r\n" st
        { st with eventRead := true }
      else
        pcSerialComStringWrite "\r\n"
          (pcSerialComStringWrite path (pcSerialComStringWrite "Failed to parse file " st))
  else st

/-- The `while` loop over the directory entries. -/
def scanEntries (strLen : Nat) (sd : SdRoot) : List String → State → State
  | [], st => st
  | d_name :: rest, st => scanEntries strLen sd rest (scanEntry strLen sd d_name st)

/-- Embedding of `eventLogReadFileFromSdCard`. -/
def eventLogReadFileFromSdCard (strLen : Nat) (sd : SdRoot) (st : State) : Bool × State :=
  match sd.opendir with
  | none =>
    let st := pcSerialComStringWrite "Failed to open SD card directory\r\n" st
    let st := { st with eventRead := false }
    (false, st)
  | some entries =>
    let st := scanEntries strLen sd entries st
    (st.eventRead, st)

/-! ## Scenarios -/

/-- Scenario A: five appends named `A` to `E` at times 1 to 5. -/
def scenarioA : List WriteCall :=
  [⟨1, true, "A"⟩, ⟨2, true, "B"⟩, ⟨3, true, "C"⟩, ⟨4, true, "D"⟩, ⟨5, true, "E"⟩]

/-! ## Observations on runs of polling passes -/

/-- The six signals in polling order. -/
def Signal.all : List Signal :=
  [.siren, .gas, .temp, .ic, .sb, .motion]

/-- The value polled for signal `k` in pass `j` (passes counted from 0) of the
sequence `envs`. -/
def polledAt (k : Signal) (envs : List Inputs) (j : Nat) : Bool :=
  match envs[j]? with
  | some env => env.read k
  | none => false

/-- What `time(NULL)` returns in pass `j` for an event of signal `k`. -/
def timeAt (k : Signal) (envs : List Inputs) (j : Nat) : Int :=
  match envs[j]? with
  | some env => env.time k
  | none => 0

/-- The value pass `j` is compared with: the one polled in the pass before, and
`OFF` for the first pass. -/
def prevPolled (k : Signal) (envs : List Inputs) : Nat → Bool
  | 0 => false
  | j + 1 => polledAt k envs j

/-- The state after the first `j` passes over `envs`, from start-up. -/
def stateAfter (c : Nat) (envs : List Inputs) (j : Nat) : State :=
  pollAll c (envs.take j) (init c)

/-- Following the claim's words, the events pass `j` has to write: going
through the signals in polling order, one call of `eventLogWrite` for each
signal whose polled value differs from the previous polled value, carrying the
polled value, and none for the others. -/
def changeWrites (envs : List Inputs) (j : Nat) : List WriteCall :=
  Signal.all.flatMap (fun k =>
    if polledAt k envs j != prevPolled k envs j then
      [{ now := timeAt k envs j, currentState := polledAt k envs j,
         elementName := k.elementName }]
    else [])

/-- One call of `eventLogUpdate` in which only the gas detector may be on, at
second `t`. -/
def gasOnly (gas : Bool) (t : Int) : Inputs :=
  { lightLevelText := "0.5"
    lightLevelMilli := 500
    elapsed := 1600000
    sirenStateRead := false
    gasDetectorStateRead := gas
    overTemperatureDetectorStateRead := false
    incorrectCodeStateRead := false
    systemBlockedStateRead := false
    motionSensorRead := false
    time := fun _ => t }

/-- Scenario B: the gas detector polled `false,false,true,true,false`, every
other signal `OFF`, at times 1 to 5. -/
def scenarioB : List Inputs :=
  [gasOnly false 1, gasOnly false 2, gasOnly true 3, gasOnly true 4, gasOnly false 5]

/-! ## Sample time source and single-record logs -/


/-- Calendar strings of the first ten seconds of the epoch as `ctime` renders
them in UTC; a sample time source for concrete evaluations. -/
def ctimeSample (t : Int) : String :=
  if 0 ≤ t ∧ t < 10 then "Thu Jan  1 00:00:0" ++ toString t.toNat ++ " 1970\n" else "?\n"

/-- A log whose slot 0 holds the record `r`: the state a block is serialized
from. -/
def holding (r : systemEvent) : State :=
  { init 1 with arrayOfStoredEvents := [r], eventsIndex := 0 }

/-- File stamps of the first ten seconds of the epoch as `strftime` renders
them under `%Y_%m_%d_%H_%M_%S` in UTC; a sample for concrete evaluations. -/
def strftimeSample (t : Int) : String :=
  if 0 ≤ t ∧ t < 10 then "1970_01_01_00_00_0" ++ toString t.toNat else "?"

/-- An empty card. -/
def emptyCard : SdCard :=
  { files := [], journal := [] }

/-- Whether the scan of one entry sets `eventRead`: the name passes the
`strstr` test, the file opens, and the loader accepts what `fread` delivers. -/
def entryLoads (strLen : Nat) (sd : SdRoot) (d_name : String) : Bool :=
  (strstr d_name ".txt").isSome &&
    match sd.fopen (fullPath d_name) with
    | none => false
    | some bytes => eventLogLoadFromString (String.mk (bytes.data.take (strLen - 1)))

/-- What the scan of one entry prints. -/
def entryReport (strLen : Nat) (sd : SdRoot) (d_name : String) : List String :=
  if (strstr d_name ".txt").isSome then
    match sd.fopen (fullPath d_name) with
    | none => ["Failed to open file ", fullPath d_name, "\r\n"]
    | some bytes =>
      if eventLogLoadFromString (String.mk (bytes.data.take (strLen - 1))) then
        ["Read events from file ", fullPath d_name, "\r\n"]
      else ["Failed to parse file ", fullPath d_name, "\r\n"]
  else []

theorem eventLogWrite_eventsIndex (c : Nat) (now : Int) (b : Bool) (name : String) (st : State)
    (h : st.eventsIndex < c) :
    (eventLogWrite c now b name st).eventsIndex = (st.eventsIndex + 1) % c := by
  simp only [eventLogWrite, pcSerialComStringWrite]
  split
  · rename_i h1
    simp only
    rw [Nat.mod_eq_of_lt (by omega)]
  · rename_i h1
    simp only
    have : st.eventsIndex + 1 = c := by omega
    rw [this, Nat.mod_self]

theorem eventLogWrite_array (c : Nat) (now : Int) (b : Bool) (name : String) (st : State) :
    (eventLogWrite c now b name st).arrayOfStoredEvents
      = st.arrayOfStoredEvents.set st.eventsIndex ⟨now, eventAndStateStr b name⟩ := by
  simp only [eventLogWrite, pcSerialComStringWrite]
  split <;> rfl

theorem eventLogWrite_serial (c : Nat) (now : Int) (b : Bool) (name : String) (st : State) :
    (eventLogWrite c now b name st).serial = st.serial ++ [eventAndStateStr b name, "\r\n"] := by
  simp only [eventLogWrite, pcSerialComStringWrite]
  split <;> simp

theorem eventLogWrite_eventsStored (c : Nat) (now : Int) (b : Bool) (name : String) (st : State) :
    (eventLogWrite c now b name st).eventsStored = st.eventsStored := by
  simp only [eventLogWrite, pcSerialComStringWrite]
  split <;> rfl

theorem eventLogWrite_lastState (c : Nat) (now : Int) (b : Bool) (name : String) (st : State)
    (k : Signal) : (eventLogWrite c now b name st).lastState k = st.lastState k := by
  simp only [eventLogWrite, pcSerialComStringWrite]
  split <;> cases k <;> rfl

theorem writeAll_append (c : Nat) (ws : List WriteCall) (w : WriteCall) (st : State) :
    writeAll c (ws ++ [w]) st
      = eventLogWrite c w.now w.currentState w.elementName (writeAll c ws st) := by
  induction ws generalizing st with
  | nil => rfl
  | cons v vs ih => exact ih _

theorem writeAll_eventsIndex (c : Nat) (ws : List WriteCall) (st : State)
    (h : st.eventsIndex < c) :
    (writeAll c ws st).eventsIndex = (st.eventsIndex + ws.length) % c := by
  induction ws generalizing st with
  | nil => simp [writeAll, Nat.mod_eq_of_lt h]
  | cons w ws ih =>
    have h1 := eventLogWrite_eventsIndex c w.now w.currentState w.elementName st h
    have h2 : (eventLogWrite c w.now w.currentState w.elementName st).eventsIndex < c := by
      rw [h1]; exact Nat.mod_lt _ (by omega)
    simp only [writeAll, List.length_cons]
    rw [ih _ h2, h1, Nat.mod_add_mod]
    congr 1
    omega

theorem writeAll_length (c : Nat) (ws : List WriteCall) (st : State) :
    (writeAll c ws st).arrayOfStoredEvents.length = st.arrayOfStoredEvents.length := by
  induction ws generalizing st with
  | nil => rfl
  | cons w ws ih => simp only [writeAll, ih, eventLogWrite_array, List.length_set]

theorem writeAll_eventsStored (c : Nat) (ws : List WriteCall) (st : State) :
    (writeAll c ws st).eventsStored = st.eventsStored := by
  induction ws generalizing st with
  | nil => rfl
  | cons w ws ih => simp only [writeAll, ih, eventLogWrite_eventsStored]

/-- After any sequence of writes from the initial state, slot `j` holds the
record of the last write whose position is congruent to `j` modulo `c`. -/
theorem writeAll_slot (c : Nat) (ws : List WriteCall) :
    ∀ (j p : Nat) (w : WriteCall), j < c → ws[p]? = some w → p % c = j →
      (∀ q, q < ws.length → q % c = j → q ≤ p) →
      slot (writeAll c ws (init c)) j = w.record := by
  induction ws using List.reverseRecOn with
  | nil => intro j p w _ hp; simp at hp
  | append_singleton ws v ih =>
    intro j p w hj hp hmod hlast
    have hidx : (writeAll c ws (init c)).eventsIndex = ws.length % c := by
      rw [writeAll_eventsIndex c ws (init c) (by simp only [init]; omega)]
      simp [init]
    have hlen : (writeAll c ws (init c)).arrayOfStoredEvents.length = c := by
      rw [writeAll_length]; simp [init]
    have hplt : p < (ws ++ [v]).length := by
      rcases Nat.lt_or_ge p (ws ++ [v]).length with h | h
      · exact h
      · rw [List.getElem?_eq_none h] at hp; cases hp
    rw [List.length_append, List.length_singleton] at hplt
    simp only [slot, writeAll_append, eventLogWrite_array, hidx]
    rcases Nat.lt_or_ge p ws.length with hlt | hge
    · -- an older write: the slot is not the one written now
      have hne : ws.length % c ≠ j := by
        intro hcon
        have := hlast ws.length (by simp) hcon
        omega
      rw [List.getElem?_append_left hlt] at hp
      have := ih j p w hj hp hmod (fun q hq hqm => hlast q (by simp; omega) hqm)
      simp only [slot] at this
      rw [← this]
      simp [List.getD_eq_getElem?_getD, List.getElem?_set, hne]
    · have hpe : p = ws.length := by omega
      subst hpe
      simp at hp
      subst hp
      simp [List.getD_eq_getElem?_getD, List.getElem?_set, hmod, hlen, hj, WriteCall.record]

/-! ## Lemmas on change detection -/

theorem elementStateUpdate_lastState (c : Nat) (now : Int) (l cur : Bool) (name : String)
    (st : State) (k : Signal) :
    (eventLogElementStateUpdate c now l cur name st).lastState k = st.lastState k := by
  unfold eventLogElementStateUpdate
  split
  · exact eventLogWrite_lastState c now cur name st k
  · rfl

theorem elementStateUpdate_siren (c : Nat) (now : Int) (l cur : Bool) (name : String)
    (st : State) :
    (eventLogElementStateUpdate c now l cur name st).sirenLastState = st.sirenLastState :=
  elementStateUpdate_lastState c now l cur name st .siren

theorem elementStateUpdate_gas (c : Nat) (now : Int) (l cur : Bool) (name : String)
    (st : State) :
    (eventLogElementStateUpdate c now l cur name st).gasLastState = st.gasLastState :=
  elementStateUpdate_lastState c now l cur name st .gas

theorem elementStateUpdate_temp (c : Nat) (now : Int) (l cur : Bool) (name : String)
    (st : State) :
    (eventLogElementStateUpdate c now l cur name st).tempLastState = st.tempLastState :=
  elementStateUpdate_lastState c now l cur name st .temp

theorem elementStateUpdate_ic (c : Nat) (now : Int) (l cur : Bool) (name : String)
    (st : State) :
    (eventLogElementStateUpdate c now l cur name st).ICLastState = st.ICLastState :=
  elementStateUpdate_lastState c now l cur name st .ic

theorem elementStateUpdate_sb (c : Nat) (now : Int) (l cur : Bool) (name : String)
    (st : State) :
    (eventLogElementStateUpdate c now l cur name st).SBLastState = st.SBLastState :=
  elementStateUpdate_lastState c now l cur name st .sb

theorem elementStateUpdate_motion (c : Nat) (now : Int) (l cur : Bool) (name : String)
    (st : State) :
    (eventLogElementStateUpdate c now l cur name st).motionLastState = st.motionLastState :=
  elementStateUpdate_lastState c now l cur name st .motion

/-- The timer gate of `eventLogUpdate` never returns early: an elapsed count is
not below `delay * 1e6`, which is zero. -/
theorem gate_open (elapsed : Nat) : ¬ ((elapsed : Int) < delay * 1000000) := by
  simp only [delay]
  omega

/-- After a call of `eventLogUpdate` every last state equals the value just
polled. -/
theorem eventLogUpdate_lastState (c : Nat) (env : Inputs) (st : State) (k : Signal) :
    (eventLogUpdate c env st).lastState k = env.read k := by
  cases k <;>
    simp [eventLogUpdate, gate_open, State.lastState, Inputs.read, elementStateUpdate_siren,
      elementStateUpdate_gas, elementStateUpdate_temp, elementStateUpdate_ic,
      elementStateUpdate_sb, elementStateUpdate_motion]

/-- The log part of `eventLogWrite` depends on the log part of the state
only. -/
theorem eventLogWrite_log_congr (c : Nat) (now : Int) (b : Bool) (name : String)
    (st st2 : State)
    (h : st.eventsIndex = st2.eventsIndex ∧ st.arrayOfStoredEvents = st2.arrayOfStoredEvents) :
    (eventLogWrite c now b name st).eventsIndex = (eventLogWrite c now b name st2).eventsIndex ∧
    (eventLogWrite c now b name st).arrayOfStoredEvents
      = (eventLogWrite c now b name st2).arrayOfStoredEvents := by
  refine ⟨?_, ?_⟩
  · simp only [eventLogWrite, pcSerialComStringWrite, h.1]
    split <;> rfl
  · rw [eventLogWrite_array, eventLogWrite_array, h.1, h.2]

/-- One step of the polling pass, followed by an update `upd` that leaves the
log alone, against the same step on a state with the same log. -/
theorem pollStep_log_congr (c : Nat) (now : Int) (l l2 cur : Bool) (name : String)
    (upd : State → State) (st st2 : State)
    (hupd : ∀ s, (upd s).eventsIndex = s.eventsIndex ∧
      (upd s).arrayOfStoredEvents = s.arrayOfStoredEvents)
    (hl : l = l2)
    (h : st.eventsIndex = st2.eventsIndex ∧ st.arrayOfStoredEvents = st2.arrayOfStoredEvents) :
    (upd (eventLogElementStateUpdate c now l cur name st)).eventsIndex
      = (eventLogElementStateUpdate c now l2 cur name st2).eventsIndex ∧
    (upd (eventLogElementStateUpdate c now l cur name st)).arrayOfStoredEvents
      = (eventLogElementStateUpdate c now l2 cur name st2).arrayOfStoredEvents := by
  subst hl
  rw [(hupd _).1, (hupd _).2]
  unfold eventLogElementStateUpdate
  split
  · exact eventLogWrite_log_congr c now cur name st st2 h
  · exact h

theorem writeAll_concat (c : Nat) (ws vs : List WriteCall) (st : State) :
    writeAll c (ws ++ vs) st = writeAll c vs (writeAll c ws st) := by
  induction ws generalizing st with
  | nil => rfl
  | cons w ws ih => exact ih _

theorem writeAll_change (c : Nat) (now : Int) (l cur : Bool) (name : String) (st : State) :
    writeAll c (if (cur != l) = true then [⟨now, cur, name⟩] else []) st
      = eventLogElementStateUpdate c now l cur name st := by
  unfold eventLogElementStateUpdate
  cases l <;> cases cur <;> rfl

/-- The log after a call of `eventLogUpdate`: the log before, with one
`eventLogWrite` for each signal, in polling order, whose polled value differs
from its last state. -/
theorem eventLogUpdate_log (c : Nat) (env : Inputs) (st : State) :
    (eventLogUpdate c env st).eventsIndex
      = (writeAll c (Signal.all.flatMap (fun k =>
          if (env.read k != st.lastState k) = true then
            [⟨env.time k, env.read k, k.elementName⟩] else [])) st).eventsIndex ∧
    (eventLogUpdate c env st).arrayOfStoredEvents
      = (writeAll c (Signal.all.flatMap (fun k =>
          if (env.read k != st.lastState k) = true then
            [⟨env.time k, env.read k, k.elementName⟩] else [])) st).arrayOfStoredEvents := by
  simp only [Signal.all, List.flatMap_cons, List.flatMap_nil, List.append_nil, writeAll_concat,
    writeAll_change, Inputs.read, State.lastState, Signal.elementName]
  simp only [eventLogUpdate, gate_open, if_false]
  refine pollStep_log_congr c _ _ _ _ _
    (fun s => { s with motionLastState := env.motionSensorRead }) _ _ (fun _ => ⟨rfl, rfl⟩) ?_ ?_
  · simp [elementStateUpdate_motion, pcSerialComStringWrite, pcSerialComIntWrite,
      pcSerialComFloatWrite]
  refine pollStep_log_congr c _ _ _ _ _
    (fun s => { s with SBLastState := env.systemBlockedStateRead }) _ _ (fun _ => ⟨rfl, rfl⟩) ?_ ?_
  · simp [elementStateUpdate_sb, pcSerialComStringWrite, pcSerialComIntWrite,
      pcSerialComFloatWrite]
  refine pollStep_log_congr c _ _ _ _ _
    (fun s => { s with ICLastState := env.incorrectCodeStateRead }) _ _ (fun _ => ⟨rfl, rfl⟩) ?_ ?_
  · simp [elementStateUpdate_ic, pcSerialComStringWrite, pcSerialComIntWrite,
      pcSerialComFloatWrite]
  refine pollStep_log_congr c _ _ _ _ _
    (fun s => { s with tempLastState := env.overTemperatureDetectorStateRead }) _ _
    (fun _ => ⟨rfl, rfl⟩) ?_ ?_
  · simp [elementStateUpdate_temp, pcSerialComStringWrite, pcSerialComIntWrite,
      pcSerialComFloatWrite]
  refine pollStep_log_congr c _ _ _ _ _
    (fun s => { s with gasLastState := env.gasDetectorStateRead }) _ _ (fun _ => ⟨rfl, rfl⟩) ?_ ?_
  · simp [elementStateUpdate_gas, pcSerialComStringWrite, pcSerialComIntWrite,
      pcSerialComFloatWrite]
  refine pollStep_log_congr c _ _ _ _ _
    (fun s => { s with sirenLastState := env.sirenStateRead }) _ _ (fun _ => ⟨rfl, rfl⟩) ?_ ?_
  · simp [pcSerialComStringWrite, pcSerialComIntWrite, pcSerialComFloatWrite]
  · constructor <;> simp [pcSerialComStringWrite, pcSerialComIntWrite, pcSerialComFloatWrite]

theorem pollAll_append (c : Nat) (pre : List Inputs) (env : Inputs) (st : State) :
    pollAll c (pre ++ [env]) st = eventLogUpdate c env (pollAll c pre st) := by
  induction pre generalizing st with
  | nil => rfl
  | cons e es ih => exact ih _

theorem stateAfter_succ (c : Nat) (envs : List Inputs) (j : Nat) (env : Inputs)
    (h : envs[j]? = some env) :
    stateAfter c envs (j + 1) = eventLogUpdate c env (stateAfter c envs j) := by
  have hj : j < envs.length := by
    rcases Nat.lt_or_ge j envs.length with h1 | h1
    · exact h1
    · rw [List.getElem?_eq_none h1] at h; cases h
  have he : envs[j] = env := by
    rw [List.getElem?_eq_getElem hj] at h
    exact Option.some.inj h
  unfold stateAfter
  rw [List.take_succ, h]
  exact pollAll_append c (envs.take j) env (init c)

theorem stateAfter_lastState (c : Nat) (envs : List Inputs) (j : Nat) (k : Signal)
    (hj : j ≤ envs.length) :
    (stateAfter c envs j).lastState k = prevPolled k envs j := by
  cases j with
  | zero => cases k <;> rfl
  | succ i =>
    have hi : i < envs.length := hj
    rw [stateAfter_succ c envs i envs[i] (List.getElem?_eq_getElem hi), eventLogUpdate_lastState]
    simp [prevPolled, polledAt, List.getElem?_eq_getElem hi]

/-- The element names of two different signals differ. -/
theorem elementName_inj (k k2 : Signal) (h : k.elementName = k2.elementName) : k = k2 := by
  cases k <;> cases k2 <;> first | rfl | exact absurd h (by decide)


theorem changeWrites_eq (c : Nat) (envs : List Inputs) (j : Nat) (hj : j < envs.length) :
    changeWrites envs j
      = Signal.all.flatMap (fun k =>
          if (envs[j].read k != (stateAfter c envs j).lastState k) = true then
            [⟨envs[j].time k, envs[j].read k, k.elementName⟩] else []) := by
  unfold changeWrites
  congr 1
  funext k
  rw [stateAfter_lastState c envs j k (by omega)]
  simp [polledAt, timeAt, List.getElem?_eq_getElem hj]

theorem ite_singleton_filter (p : WriteCall → Bool) (b : Bool) (w : WriteCall) :
    (if b = true then [w] else []).filter p = if (b && p w) = true then [w] else [] := by
  cases b <;> cases h : p w <;> simp [h]

theorem changeWrites_filter (k : Signal) (envs : List Inputs) (j : Nat) :
    (changeWrites envs j).filter (fun w => w.elementName == k.elementName)
      = if (polledAt k envs j != prevPolled k envs j) = true then
          [⟨timeAt k envs j, polledAt k envs j, k.elementName⟩] else [] := by
  unfold changeWrites
  simp only [Signal.all, List.flatMap_cons, List.flatMap_nil, List.append_nil, List.filter_append,
    ite_singleton_filter]
  cases k <;> simp [Signal.elementName]

/-! ## Lemmas on the block format -/

theorem eventLogRead_eq (ctime : Int → String) (index : Nat) (st : State) :
    eventLogRead ctime index st
      = "Event = " ++ (slot st index).typeOfEvent ++ "\r\nDate and Time = "
          ++ ctime (slot st index).seconds ++ "\r\n" := by
  simp [eventLogRead]

theorem eventLogRead_congr (ctime : Int → String) (index : Nat) (st st2 : State)
    (h : st.arrayOfStoredEvents = st2.arrayOfStoredEvents) :
    eventLogRead ctime index st = eventLogRead ctime index st2 := by
  simp only [eventLogRead, slot, h]

theorem eventLogLoadFromString_eventLogRead (ctime : Int → String) (index : Nat) (st : State) :
    eventLogLoadFromString (eventLogRead ctime index st) = true := by
  have h : (eventLogRead ctime index st).data
      = 'E' :: ("vent = ".data ++ (slot st index).typeOfEvent.data ++ "\r\nDate and Time = ".data
          ++ (ctime (slot st index).seconds).data ++ "\r\n".data) := by
    simp [eventLogRead, String.data_append]
  simp [eventLogLoadFromString, strlen, h, List.takeWhile_cons]


/-! ## Lemmas on saving to the card -/

theorem saveLoop_step_fail (ctime : Int → String) (fopenOk : Nat → Bool) (fileName : String)
    (todo i : Nat) (st : State) (sd : SdCard) (hi : i < st.eventsIndex)
    (hok : fopenOk i = false) :
    saveLoop ctime fopenOk fileName (todo + 1) i st sd
      = saveLoop ctime fopenOk fileName todo (i + 1) st
          { sd with journal := sd.journal ++ [(fileName, eventLogRead ctime i st)] } := by
  rw [saveLoop]
  simp [eventLogNumberOfStoredEvents, hi, sdCardWriteFile, hok]

theorem saveLoop_step_ok (ctime : Int → String) (fopenOk : Nat → Bool) (fileName : String)
    (todo i : Nat) (st : State) (sd : SdCard) (hi : i < st.eventsIndex)
    (hok : fopenOk i = true) :
    saveLoop ctime fopenOk fileName (todo + 1) i st sd
      = saveLoop ctime fopenOk fileName todo (i + 1)
          { st with
            serial := st.serial ++ ["Storing event ", toString (i + 1), " in file ", fileName, "\r\n"]
            eventsStored := true }
          { files := fileAppend ("/sd/" ++ fileName) (eventLogRead ctime i st) sd.files
            journal := sd.journal ++ [(fileName, eventLogRead ctime i st)] } := by
  rw [saveLoop]
  simp [eventLogNumberOfStoredEvents, hi, sdCardWriteFile, hok, pcSerialComStringWrite,
    pcSerialComIntWrite]

/-- What the loop of `eventLogSaveToSdCard` does from index `i` with `todo`
iterations left, when `i + todo` is the number of stored events. -/
theorem saveLoop_spec (ctime : Int → String) (fopenOk : Nat → Bool) (fileName : String)
    (todo : Nat) :
    ∀ (i : Nat) (st : State) (sd : SdCard), i + todo = st.eventsIndex →
      (saveLoop ctime fopenOk fileName todo i st sd).1.eventsIndex = st.eventsIndex ∧
      (saveLoop ctime fopenOk fileName todo i st sd).1.arrayOfStoredEvents
        = st.arrayOfStoredEvents ∧
      (saveLoop ctime fopenOk fileName todo i st sd).2.journal
        = sd.journal ++ (List.range' i todo).map (fun n => (fileName, eventLogRead ctime n st)) ∧
      (saveLoop ctime fopenOk fileName todo i st sd).2.files
        = (List.range' i todo).foldl
            (fun fs n =>
              if fopenOk n then fileAppend ("/sd/" ++ fileName) (eventLogRead ctime n st) fs
              else fs) sd.files ∧
      (saveLoop ctime fopenOk fileName todo i st sd).1.eventsStored
        = (st.eventsStored || (List.range' i todo).any fopenOk) ∧
      (saveLoop ctime fopenOk fileName todo i st sd).1.serial
        = st.serial ++ (List.range' i todo).flatMap (fun n =>
            if fopenOk n then ["Storing event ", toString (n + 1), " in file ", fileName, "\r\n"]
            else []) := by
  induction todo with
  | zero => intro i st sd _; simp [saveLoop]
  | succ todo ih =>
    intro i st sd hk
    have hi : i < st.eventsIndex := by omega
    simp only [List.range'_succ, List.map_cons, List.foldl_cons, List.any_cons,
      List.flatMap_cons]
    cases hok : fopenOk i
    · -- the write fails: nothing is printed, the loop goes on
      rw [saveLoop_step_fail ctime fopenOk fileName todo i st sd hi hok]
      obtain ⟨h1, h2, h3, h4, h5, h6⟩ := ih (i + 1) st
        { sd with journal := sd.journal ++ [(fileName, eventLogRead ctime i st)] } (by omega)
      refine ⟨h1, h2, ?_, ?_, ?_, ?_⟩
      · rw [h3]; simp
      · rw [h4]; simp
      · rw [h5]; simp
      · rw [h6]; simp
    · rw [saveLoop_step_ok ctime fopenOk fileName todo i st sd hi hok]
      obtain ⟨h1, h2, h3, h4, h5, h6⟩ := ih (i + 1)
        { st with
          serial := st.serial ++ ["Storing event ", toString (i + 1), " in file ", fileName, "\r\n"]
          eventsStored := true }
        { files := fileAppend ("/sd/" ++ fileName) (eventLogRead ctime i st) sd.files
          journal := sd.journal ++ [(fileName, eventLogRead ctime i st)] }
        (by simp only; omega)
      have hread : ∀ n, eventLogRead ctime n
          { st with
            serial := st.serial ++ ["Storing event ", toString (i + 1), " in file ", fileName, "\r\n"]
            eventsStored := true }
          = eventLogRead ctime n st := fun n => eventLogRead_congr ctime n _ _ rfl
      simp only [hread] at h3 h4
      refine ⟨h1, h2, ?_, ?_, ?_, ?_⟩
      · rw [h3]; simp
      · rw [h4]; simp
      · rw [h5]; simp
      · rw [h6]; simp

/-- What `eventLogSaveToSdCard` does, in terms of the number `k` of stored
events the log reports. -/
theorem eventLogSaveToSdCard_spec (ctime strftime : Int → String) (now : Int)
    (fopenOk : Nat → Bool) (st : State) (sd : SdCard) :
    (eventLogSaveToSdCard ctime strftime now fopenOk st sd).1 = true ∧
    (eventLogSaveToSdCard ctime strftime now fopenOk st sd).2.1.eventsIndex = st.eventsIndex ∧
    (eventLogSaveToSdCard ctime strftime now fopenOk st sd).2.1.arrayOfStoredEvents
      = st.arrayOfStoredEvents ∧
    (eventLogSaveToSdCard ctime strftime now fopenOk st sd).2.2.journal
      = sd.journal ++ (List.range st.eventsIndex).map
          (fun n => (strftime now ++ ".txt", eventLogRead ctime n st)) ∧
    (eventLogSaveToSdCard ctime strftime now fopenOk st sd).2.2.files
      = (List.range st.eventsIndex).foldl
          (fun fs n =>
            if fopenOk n then
              fileAppend ("/sd/" ++ (strftime now ++ ".txt")) (eventLogRead ctime n st) fs
            else fs) sd.files ∧
    (eventLogSaveToSdCard ctime strftime now fopenOk st sd).2.1.eventsStored
      = (st.eventsStored || (List.range st.eventsIndex).any fopenOk) ∧
    (eventLogSaveToSdCard ctime strftime now fopenOk st sd).2.1.serial
      = st.serial ++ (List.range st.eventsIndex).flatMap (fun n =>
            if fopenOk n then
              ["Storing event ", toString (n + 1), " in file ", strftime now ++ ".txt", "\r\n"]
            else [])
          ++ (if (st.eventsStored || (List.range st.eventsIndex).any fopenOk) = true then
                ["File successfully written\r\n\r\n"]
              else ["There are no events to store ", "or SD card is not available\r\n\r\n"]) := by
  obtain ⟨h1, h2, h3, h4, h5, h6⟩ :=
    saveLoop_spec ctime fopenOk (strftime now ++ ".txt") st.eventsIndex 0 st sd (by omega)
  rw [← List.range_eq_range'] at h3 h4 h5 h6
  simp only [eventLogSaveToSdCard, eventLogNumberOfStoredEvents]
  refine ⟨trivial, ?_, ?_, h3, h4, ?_, ?_⟩
  · split <;> simp [pcSerialComStringWrite, h1]
  · split <;> simp [pcSerialComStringWrite, h2]
  · split <;> simp [pcSerialComStringWrite, h5]
  · rw [← h5]
    split <;> simp [pcSerialComStringWrite, h6]


/-! ## Lemmas on the scan of the card -/

theorem scanEntry_eventRead (strLen : Nat) (sd : SdRoot) (d_name : String) (st : State) :
    (scanEntry strLen sd d_name st).eventRead = (st.eventRead || entryLoads strLen sd d_name) := by
  unfold scanEntry entryLoads
  cases hs : (strstr d_name ".txt").isSome
  · simp
  · cases hf : sd.fopen (fullPath d_name) with
    | none => simp [pcSerialComStringWrite, hf]
    | some bytes =>
      cases hl : eventLogLoadFromString (String.mk (bytes.data.take (strLen - 1))) <;>
        simp [pcSerialComStringWrite, hf, hl]

theorem scanEntry_serial (strLen : Nat) (sd : SdRoot) (d_name : String) (st : State) :
    (scanEntry strLen sd d_name st).serial = st.serial ++ entryReport strLen sd d_name := by
  unfold scanEntry entryReport
  cases hs : (strstr d_name ".txt").isSome
  · simp
  · cases hf : sd.fopen (fullPath d_name) with
    | none => simp [pcSerialComStringWrite, hf]
    | some bytes =>
      cases hl : eventLogLoadFromString (String.mk (bytes.data.take (strLen - 1))) <;>
        simp [pcSerialComStringWrite, hf, hl]

theorem scanEntries_eventRead (strLen : Nat) (sd : SdRoot) (entries : List String) (st : State) :
    (scanEntries strLen sd entries st).eventRead
      = (st.eventRead || entries.any (entryLoads strLen sd)) := by
  induction entries generalizing st with
  | nil => simp [scanEntries]
  | cons e es ih => simp [scanEntries, ih, scanEntry_eventRead, Bool.or_assoc]

theorem scanEntries_serial (strLen : Nat) (sd : SdRoot) (entries : List String) (st : State) :
    (scanEntries strLen sd entries st).serial
      = st.serial ++ entries.flatMap (entryReport strLen sd) := by
  induction entries generalizing st with
  | nil => simp [scanEntries]
  | cons e es ih => simp [scanEntries, ih, scanEntry_serial]

/-- C1, as stated, fails: with capacity 3, after three writes from the initial
state `eventLogNumberOfStoredEvents` returns 0, not `min 3 3 = 3`. -/
theorem C1_counterexample :
    eventLogNumberOfStoredEvents (writeAll 3 (scenarioA.take 3) (init 3)) = 0 ∧
    eventLogNumberOfStoredEvents (writeAll 3 (scenarioA.take 3) (init 3))
      ≠ min (scenarioA.take 3).length 3 := by
  decide

/-- C1 (amended): for every capacity `c ≥ 1`, after `n` calls of
`eventLogWrite` from the initial state `eventLogNumberOfStoredEvents` returns
`n mod c`; that value is `min n c` exactly when `n < c`. -/
theorem C1_stored_events_mod (c : Nat) (ws : List WriteCall) (hc : 1 ≤ c) :
    eventLogNumberOfStoredEvents (writeAll c ws (init c)) = ws.length % c ∧
    (eventLogNumberOfStoredEvents (writeAll c ws (init c)) = min ws.length c ↔ ws.length < c) := by
  have h : eventLogNumberOfStoredEvents (writeAll c ws (init c)) = ws.length % c := by
    simp only [eventLogNumberOfStoredEvents]
    rw [writeAll_eventsIndex c ws (init c) (by simp only [init]; omega)]
    simp [init]
  refine ⟨h, ?_⟩
  rw [h]
  constructor
  · intro heq
    by_contra hge
    have hlt : ws.length % c < c := Nat.mod_lt _ (by omega)
    rw [Nat.min_eq_right (by omega)] at heq
    omega
  · intro hlt
    rw [Nat.mod_eq_of_lt hlt, Nat.min_eq_left (by omega)]

/-- C1 (amended) at capacity 3 after the five appends of scenario A: 2 is
returned. -/
theorem C1_stored_events_mod_witness :
    eventLogNumberOfStoredEvents (writeAll 3 scenarioA (init 3)) = 5 % 3 ∧
    (eventLogNumberOfStoredEvents (writeAll 3 scenarioA (init 3)) = min 5 3 ↔ 5 < 3) :=
  C1_stored_events_mod 3 scenarioA (by decide)

/-- C2, as stated, fails: with capacity 3 and the appends `A,B,C,D,E`, two
records are reported, index 0 reads back `D` (position 3) where the claim
expects position `max 0 (5 - 3) + 0 = 2`, which is `C`; the read-back is `D,E`,
not `C,D,E`. -/
theorem C2_counterexample :
    eventLogNumberOfStoredEvents (writeAll 3 scenarioA (init 3)) = 2 ∧
    slot (writeAll 3 scenarioA (init 3)) 0 = ⟨4, "D_ON"⟩ ∧
    some (slot (writeAll 3 scenarioA (init 3)) 0)
      ≠ (scenarioA[max 0 (5 - 3) + 0]?).map WriteCall.record ∧
    (List.range (eventLogNumberOfStoredEvents (writeAll 3 scenarioA (init 3)))).map
        (fun i => (slot (writeAll 3 scenarioA (init 3)) i).typeOfEvent)
      = ["D_ON", "E_ON"] := by
  decide

/-- C2 (amended): for every capacity `c ≥ 1`, every sequence of `n` appended
events and every index `i < eventLogNumberOfStoredEvents() = n mod c`, the
record at index `i`, which `eventLogRead(i)` renders, is the event appended at
position `c * (n / c) + i`: read-back is in insertion order starting at the
first append after the last wrap-around (position `i` itself while `n < c`). -/
theorem C2_read_back_since_wrap (c : Nat) (ws : List WriteCall) (i : Nat) (ctime : Int → String)
    (hc : 1 ≤ c) (hi : i < eventLogNumberOfStoredEvents (writeAll c ws (init c))) :
    ∃ w, ws[c * (ws.length / c) + i]? = some w ∧
      slot (writeAll c ws (init c)) i = w.record ∧
      eventLogRead ctime i (writeAll c ws (init c))
        = "Event = " ++ eventAndStateStr w.currentState w.elementName
            ++ "\r\nDate and Time = " ++ ctime w.now ++ "\r\n" ∧
      (ws.length < c → c * (ws.length / c) + i = i) := by
  have hidx : eventLogNumberOfStoredEvents (writeAll c ws (init c)) = ws.length % c := by
    simp only [eventLogNumberOfStoredEvents]
    rw [writeAll_eventsIndex c ws (init c) (by simp only [init]; omega)]
    simp [init]
  rw [hidx] at hi
  have hcpos : 0 < c := by omega
  have hmodlt : ws.length % c < c := Nat.mod_lt _ hcpos
  have hdiv := Nat.div_add_mod ws.length c
  have hp : c * (ws.length / c) + i < ws.length := by omega
  refine ⟨ws[c * (ws.length / c) + i], List.getElem?_eq_getElem hp, ?_, ?_, ?_⟩
  · refine writeAll_slot c ws i _ _ (by omega) (List.getElem?_eq_getElem hp) ?_ ?_
    · rw [Nat.mul_add_mod]
      exact Nat.mod_eq_of_lt (by omega)
    · intro q hq hqm
      have hq1 := Nat.div_add_mod q c
      have hle : q / c ≤ ws.length / c := Nat.div_le_div_right (by omega)
      have := Nat.mul_le_mul_left c hle
      omega
  · have hs : slot (writeAll c ws (init c)) i = (ws[c * (ws.length / c) + i]).record := by
      refine writeAll_slot c ws i _ _ (by omega) (List.getElem?_eq_getElem hp) ?_ ?_
      · rw [Nat.mul_add_mod]
        exact Nat.mod_eq_of_lt (by omega)
      · intro q hq hqm
        have hq1 := Nat.div_add_mod q c
        have hle : q / c ≤ ws.length / c := Nat.div_le_div_right (by omega)
        have := Nat.mul_le_mul_left c hle
        omega
    simp only [eventLogRead, hs, WriteCall.record]
    simp
  · intro hlt
    rw [Nat.div_eq_of_lt hlt]
    simp

/-- C2 (amended) on scenario A with capacity 3 at index 1: position 4, the
append `E`. -/
theorem C2_read_back_since_wrap_witness :
    ∃ w, scenarioA[3 * (scenarioA.length / 3) + 1]? = some w ∧
      slot (writeAll 3 scenarioA (init 3)) 1 = w.record ∧
      eventLogRead (fun _ => "Thu Jan  1 00:00:05 1970\n") 1 (writeAll 3 scenarioA (init 3))
        = "Event = " ++ eventAndStateStr w.currentState w.elementName
            ++ "\r\nDate and Time = " ++ (fun _ => "Thu Jan  1 00:00:05 1970\n") w.now ++ "\r\n" ∧
      (scenarioA.length < 3 → 3 * (scenarioA.length / 3) + 1 = 1) :=
  C2_read_back_since_wrap 3 scenarioA 1 (fun _ => "Thu Jan  1 00:00:05 1970\n") (by decide)
    (by decide)

/-- C10: for every capacity `c ≥ 1` and every sequence of `eventLogWrite` calls
from the initial state, `eventsIndex` is below `c`, the array has `c` slots,
and one more call stores its record in the slot at the old index, leaves the
other slots alone and sets the index to `(old index + 1) mod c`. -/
theorem C10_write_index (c : Nat) (ws : List WriteCall) (w : WriteCall) (hc : 1 ≤ c) :
    (writeAll c ws (init c)).eventsIndex < c ∧
    (writeAll c ws (init c)).arrayOfStoredEvents.length = c ∧
    (eventLogWrite c w.now w.currentState w.elementName (writeAll c ws (init c))).eventsIndex
      = ((writeAll c ws (init c)).eventsIndex + 1) % c ∧
    slot (eventLogWrite c w.now w.currentState w.elementName (writeAll c ws (init c)))
        (writeAll c ws (init c)).eventsIndex = w.record ∧
    (∀ j, j ≠ (writeAll c ws (init c)).eventsIndex →
      slot (eventLogWrite c w.now w.currentState w.elementName (writeAll c ws (init c))) j
        = slot (writeAll c ws (init c)) j) ∧
    (eventLogWrite c w.now w.currentState w.elementName
        (writeAll c ws (init c))).arrayOfStoredEvents.length = c := by
  have hidx : (writeAll c ws (init c)).eventsIndex < c := by
    rw [writeAll_eventsIndex c ws (init c) (by simp only [init]; omega)]
    exact Nat.mod_lt _ (by omega)
  have hlen : (writeAll c ws (init c)).arrayOfStoredEvents.length = c := by
    rw [writeAll_length]; simp [init]
  refine ⟨hidx, hlen, eventLogWrite_eventsIndex c _ _ _ _ hidx, ?_, ?_, ?_⟩
  · simp [slot, eventLogWrite_array, List.getD_eq_getElem?_getD, List.getElem?_set, hlen, hidx,
      WriteCall.record]
  · intro j hj
    simp [slot, eventLogWrite_array, List.getD_eq_getElem?_getD, List.getElem?_set, Ne.symm hj]
  · rw [eventLogWrite_array, List.length_set, hlen]

/-- C10 at capacity 3 after the five appends of scenario A, for one more
append. -/
theorem C10_write_index_witness :
    (writeAll 3 scenarioA (init 3)).eventsIndex < 3 ∧
    (writeAll 3 scenarioA (init 3)).arrayOfStoredEvents.length = 3 ∧
    (eventLogWrite 3 6 false "F" (writeAll 3 scenarioA (init 3))).eventsIndex
      = ((writeAll 3 scenarioA (init 3)).eventsIndex + 1) % 3 ∧
    slot (eventLogWrite 3 6 false "F" (writeAll 3 scenarioA (init 3)))
        (writeAll 3 scenarioA (init 3)).eventsIndex = (WriteCall.mk 6 false "F").record ∧
    (∀ j, j ≠ (writeAll 3 scenarioA (init 3)).eventsIndex →
      slot (eventLogWrite 3 6 false "F" (writeAll 3 scenarioA (init 3))) j
        = slot (writeAll 3 scenarioA (init 3)) j) ∧
    (eventLogWrite 3 6 false "F" (writeAll 3 scenarioA (init 3))).arrayOfStoredEvents.length = 3 :=
  C10_write_index 3 scenarioA ⟨6, false, "F"⟩ (by decide)

/-! ## Change detection: events at exactly the changes -/

/-- C3: for each of the six signals `k`, every sequence `envs` of polled values
fed to successive calls of `eventLogUpdate` from start-up and every pass `j` of
it: the stored log after the pass (write index and slots) is the log before
the pass with `eventLogWrite` called once for each signal whose polled value
differs from the one polled in the pass before (`OFF` for the first pass), in
polling order and with the polled value; among these calls the ones for `k`
are exactly one when the value of `k` changed and none when it did not; and
after the pass the last state of `k` is the polled value, event or not. -/
theorem C3_event_exactly_on_change (c : Nat) (k : Signal) (envs : List Inputs) (j : Nat)
    (hj : j < envs.length) :
    (stateAfter c envs (j + 1)).eventsIndex
      = (writeAll c (changeWrites envs j) (stateAfter c envs j)).eventsIndex ∧
    (stateAfter c envs (j + 1)).arrayOfStoredEvents
      = (writeAll c (changeWrites envs j) (stateAfter c envs j)).arrayOfStoredEvents ∧
    (changeWrites envs j).filter (fun w => w.elementName == k.elementName)
      = (if polledAt k envs j ≠ prevPolled k envs j then
          [⟨timeAt k envs j, polledAt k envs j, k.elementName⟩] else []) ∧
    (stateAfter c envs (j + 1)).lastState k = polledAt k envs j := by
  have hget : envs[j]? = some envs[j] := List.getElem?_eq_getElem hj
  have hstep := stateAfter_succ c envs j envs[j] hget
  have hlog := eventLogUpdate_log c envs[j] (stateAfter c envs j)
  rw [← changeWrites_eq c envs j hj] at hlog
  refine ⟨?_, ?_, ?_, ?_⟩
  · rw [hstep]; exact hlog.1
  · rw [hstep]; exact hlog.2
  · rw [changeWrites_filter]
    cases polledAt k envs j <;> cases prevPolled k envs j <;> simp
  · rw [hstep, eventLogUpdate_lastState]
    simp [polledAt, hget]

/-- C3 on scenario B (gas polled `false,false,true,true,false`) at the third
pass, the first change, with capacity 10. -/
theorem C3_event_exactly_on_change_witness :
    (stateAfter 10 scenarioB (2 + 1)).eventsIndex
      = (writeAll 10 (changeWrites scenarioB 2) (stateAfter 10 scenarioB 2)).eventsIndex ∧
    (stateAfter 10 scenarioB (2 + 1)).arrayOfStoredEvents
      = (writeAll 10 (changeWrites scenarioB 2) (stateAfter 10 scenarioB 2)).arrayOfStoredEvents ∧
    (changeWrites scenarioB 2).filter (fun w => w.elementName == Signal.gas.elementName)
      = (if polledAt .gas scenarioB 2 ≠ prevPolled .gas scenarioB 2 then
          [⟨timeAt .gas scenarioB 2, polledAt .gas scenarioB 2, Signal.gas.elementName⟩]
        else []) ∧
    (stateAfter 10 scenarioB (2 + 1)).lastState .gas = polledAt .gas scenarioB 2 :=
  C3_event_exactly_on_change 10 .gas scenarioB 2 (by decide)

/-- Scenario B in full, with capacity 10: the number of stored events after 0
to 5 passes is 0, 0, 0, 1, 1, 2; the events owed are `GAS_DET` on in pass 3 and
`GAS_DET` off in pass 5 and nothing else; and the log ends up holding
`GAS_DET_ON` of second 3 and `GAS_DET_OFF` of second 5 in slots 0 and 1, the
other slots untouched. -/
theorem scenarioB_events :
    (List.range 6).map (fun j => eventLogNumberOfStoredEvents (stateAfter 10 scenarioB j))
      = [0, 0, 0, 1, 1, 2] ∧
    (List.range 5).map (changeWrites scenarioB)
      = [[], [], [⟨3, true, "GAS_DET"⟩], [], [⟨5, false, "GAS_DET"⟩]] ∧
    (stateAfter 10 scenarioB 5).arrayOfStoredEvents
      = [⟨3, "GAS_DET_ON"⟩, ⟨5, "GAS_DET_OFF"⟩] ++ List.replicate 8 ⟨0, ""⟩ := by
  decide

/-! ## The block format and the loader -/

/-- C7: for every stored record with name `s` and timestamp `t`, the block
`eventLogRead` produces is `Event = ` followed by `s` and CR LF, then
`Date and Time = ` followed by the calendar string of `t`, then CR LF.  When
the calendar string ends in its newline and neither `s` nor the rest of the
calendar string holds a newline, these are exactly three newline-terminated
lines, the third blank (a lone CR); and the block depends on `(s, t)` only. -/
theorem C7_block_three_lines (ctime : Int → String) (index : Nat) (st : State) (s cal : String)
    (t : Int) (hslot : slot st index = ⟨t, s⟩) (hcal : ctime t = cal ++ "\n")
    (hs : '\n' ∉ s.data) (hc : '\n' ∉ cal.data) :
    eventLogRead ctime index st
      = "Event = " ++ s ++ "\r\n" ++ "Date and Time = " ++ ctime t ++ "\r\n" ∧
    eventLogRead ctime index st
      = (("Event = " ++ s ++ "\r") ++ "\n") ++ (("Date and Time = " ++ cal) ++ "\n")
          ++ ("\r" ++ "\n") ∧
    '\n' ∉ ("Event = " ++ s ++ "\r").data ∧
    '\n' ∉ ("Date and Time = " ++ cal).data ∧
    '\n' ∉ "\r".data ∧
    (∀ (index2 : Nat) (st2 : State), slot st2 index2 = ⟨t, s⟩ →
      eventLogRead ctime index2 st2 = eventLogRead ctime index st) := by
  refine ⟨?_, ?_, ?_, ?_, ?_, ?_⟩
  · rw [eventLogRead_eq, hslot]
    simp [String.append_assoc]
  · rw [eventLogRead_eq, hslot]
    simp only [hcal]
    apply String.ext
    simp [String.data_append]
  · simp [String.data_append, hs]
  · simp [String.data_append, hc]
  · decide
  · intro index2 st2 h2
    rw [eventLogRead_eq, eventLogRead_eq, hslot, h2]

/-- C7 for the record `GAS_DET_ON` written at second 3, under the sample time
source. -/
theorem C7_block_three_lines_witness :
    eventLogRead ctimeSample 0 (writeAll 10 [⟨3, true, "GAS_DET"⟩] (init 10))
      = "Event = " ++ "GAS_DET_ON" ++ "\r\n" ++ "Date and Time = " ++ ctimeSample 3 ++ "\r\n" ∧
    eventLogRead ctimeSample 0 (writeAll 10 [⟨3, true, "GAS_DET"⟩] (init 10))
      = (("Event = " ++ "GAS_DET_ON" ++ "\r") ++ "\n")
          ++ (("Date and Time = " ++ "Thu Jan  1 00:00:03 1970") ++ "\n") ++ ("\r" ++ "\n") ∧
    '\n' ∉ ("Event = " ++ "GAS_DET_ON" ++ "\r").data ∧
    '\n' ∉ ("Date and Time = " ++ "Thu Jan  1 00:00:03 1970").data ∧
    '\n' ∉ "\r".data ∧
    (∀ (index2 : Nat) (st2 : State), slot st2 index2 = ⟨3, "GAS_DET_ON"⟩ →
      eventLogRead ctimeSample index2 st2
        = eventLogRead ctimeSample 0 (writeAll 10 [⟨3, true, "GAS_DET"⟩] (init 10))) :=
  C7_block_three_lines ctimeSample 0 (writeAll 10 [⟨3, true, "GAS_DET"⟩] (init 10))
    "GAS_DET_ON" "Thu Jan  1 00:00:03 1970" 3 (by decide) (by decide) (by decide) (by decide)

/-- The twelve event names `eventLogUpdate` can store hold no newline. -/
theorem monitored_names_single_line (k : Signal) (b : Bool) :
    '\n' ∉ (eventAndStateStr b k.elementName).data := by
  cases k <;> cases b <;> decide

/-- C4, as stated, fails: the loader returns one boolean, the same for the
blocks of two different records, so no reading of its result gives back the
record that was serialized. -/
theorem C4_counterexample :
    ¬ ∃ decode : Bool → List systemEvent,
      decode (eventLogLoadFromString (eventLogRead ctimeSample 0 (holding ⟨1, "ALARM_ON"⟩)))
        = [⟨1, "ALARM_ON"⟩] ∧
      decode (eventLogLoadFromString (eventLogRead ctimeSample 0 (holding ⟨2, "GAS_DET_OFF"⟩)))
        = [⟨2, "GAS_DET_OFF"⟩] := by
  rintro ⟨decode, h1, h2⟩
  have e1 : eventLogLoadFromString (eventLogRead ctimeSample 0 (holding ⟨1, "ALARM_ON"⟩)) = true := by
    decide
  have e2 :
      eventLogLoadFromString (eventLogRead ctimeSample 0 (holding ⟨2, "GAS_DET_OFF"⟩)) = true := by
    decide
  rw [e1] at h1
  rw [e2, h1] at h2
  exact absurd h2 (by decide)

/-- C4 (amended): for every record `r` and every time source,
`eventLogLoadFromString` applied to the block `eventLogRead` produces for `r`
returns `true`: the block is not empty.  The same holds for the block of any
slot of any log.  The loader reconstructs no record. -/
theorem C4_loader_accepts_block (ctime : Int → String) (r : systemEvent) (index : Nat)
    (st : State) :
    slot (holding r) 0 = r ∧
    eventLogLoadFromString (eventLogRead ctime 0 (holding r)) = true ∧
    eventLogLoadFromString (eventLogRead ctime index st) = true :=
  ⟨rfl, eventLogLoadFromString_eventLogRead ctime 0 (holding r),
    eventLogLoadFromString_eventLogRead ctime index st⟩

/-! ## Saving to the card -/

/-- A save with no stored event reported issues no write and leaves the card
as it was; the outcome printed is "nothing to store" only when the flag
`eventsStored` is still `false`. -/
theorem save_nothing_stored (ctime strftime : Int → String) (now : Int) (fopenOk : Nat → Bool)
    (st : State) (sd : SdCard) (hk : eventLogNumberOfStoredEvents st = 0) :
    (eventLogSaveToSdCard ctime strftime now fopenOk st sd).2.2 = sd ∧
    (eventLogSaveToSdCard ctime strftime now fopenOk st sd).2.1.serial
      = st.serial ++ (if st.eventsStored = true then ["File successfully written\r\n\r\n"]
          else ["There are no events to store ", "or SD card is not available\r\n\r\n"]) := by
  obtain ⟨_, _, _, hj, hf, _, hs⟩ := eventLogSaveToSdCard_spec ctime strftime now fopenOk st sd
  simp only [eventLogNumberOfStoredEvents] at hk
  rw [hk] at hj hf hs
  constructor
  · cases hsd : (eventLogSaveToSdCard ctime strftime now fopenOk st sd).2.2 with
    | mk files journal =>
      rw [hsd] at hj hf
      cases sd
      simp at hj hf
      simp [hj, hf]
  · rw [hs]; simp

/-- C6 fails on the code: for every capacity `c ≥ 2`, write one event, save it
to a working card (the flag `eventsStored` becomes `true` and is never reset),
write `c - 1` more events so that the index wraps to 0; the next save finds no
stored event, issues no write, and still prints "File successfully written". -/
theorem C6_stale_flag_reports_success (c : Nat) (ctime strftime : Int → String) (now now2 : Int)
    (fopenOk fopenOk2 : Nat → Bool) (w : WriteCall) (ws : List WriteCall) (sd : SdCard)
    (hlen : ws.length + 1 = c) (hws : 1 ≤ ws.length) (hok : fopenOk 0 = true) :
    eventLogNumberOfStoredEvents
        (writeAll c ws (eventLogSaveToSdCard ctime strftime now fopenOk
          (eventLogWrite c w.now w.currentState w.elementName (init c)) sd).2.1) = 0 ∧
    (eventLogSaveToSdCard ctime strftime now2 fopenOk2
        (writeAll c ws (eventLogSaveToSdCard ctime strftime now fopenOk
          (eventLogWrite c w.now w.currentState w.elementName (init c)) sd).2.1)
        (eventLogSaveToSdCard ctime strftime now fopenOk
          (eventLogWrite c w.now w.currentState w.elementName (init c)) sd).2.2).2.2
      = (eventLogSaveToSdCard ctime strftime now fopenOk
          (eventLogWrite c w.now w.currentState w.elementName (init c)) sd).2.2 ∧
    (eventLogSaveToSdCard ctime strftime now2 fopenOk2
        (writeAll c ws (eventLogSaveToSdCard ctime strftime now fopenOk
          (eventLogWrite c w.now w.currentState w.elementName (init c)) sd).2.1)
        (eventLogSaveToSdCard ctime strftime now fopenOk
          (eventLogWrite c w.now w.currentState w.elementName (init c)) sd).2.2).2.1.serial
      = (writeAll c ws (eventLogSaveToSdCard ctime strftime now fopenOk
          (eventLogWrite c w.now w.currentState w.elementName (init c)) sd).2.1).serial
        ++ ["File successfully written\r\n\r\n"] := by
  have hidx1 : (eventLogWrite c w.now w.currentState w.elementName (init c)).eventsIndex = 1 := by
    rw [eventLogWrite_eventsIndex c _ _ _ _ (by simp only [init]; omega)]
    simp only [init]
    exact Nat.mod_eq_of_lt (by omega)
  obtain ⟨_, hi2, _, _, _, hst2, _⟩ := eventLogSaveToSdCard_spec ctime strftime now fopenOk
    (eventLogWrite c w.now w.currentState w.elementName (init c)) sd
  rw [hidx1] at hi2 hst2
  have hstored : (eventLogSaveToSdCard ctime strftime now fopenOk
      (eventLogWrite c w.now w.currentState w.elementName (init c)) sd).2.1.eventsStored = true := by
    rw [hst2]; simp [List.range_succ, hok]
  have hzero : eventLogNumberOfStoredEvents
      (writeAll c ws (eventLogSaveToSdCard ctime strftime now fopenOk
        (eventLogWrite c w.now w.currentState w.elementName (init c)) sd).2.1) = 0 := by
    simp only [eventLogNumberOfStoredEvents]
    rw [writeAll_eventsIndex c ws _ (by rw [hi2]; omega), hi2]
    have : 1 + ws.length = c := by omega
    rw [this, Nat.mod_self]
  obtain ⟨hsd, hser⟩ := save_nothing_stored ctime strftime now2 fopenOk2 _
    (eventLogSaveToSdCard ctime strftime now fopenOk
      (eventLogWrite c w.now w.currentState w.elementName (init c)) sd).2.2 hzero
  refine ⟨hzero, hsd, ?_⟩
  rw [hser, writeAll_eventsStored, hstored]
  simp

/-- C6 fails on the code, at capacity 2 with a working empty card: `ALARM_ON`,
save, `ALARM_OFF`, save. -/
theorem C6_stale_flag_reports_success_witness :
    eventLogNumberOfStoredEvents
        (writeAll 2 [⟨2, false, "ALARM"⟩] (eventLogSaveToSdCard ctimeSample strftimeSample 1
          (fun _ => true) (eventLogWrite 2 1 true "ALARM" (init 2)) emptyCard).2.1) = 0 ∧
    (eventLogSaveToSdCard ctimeSample strftimeSample 3 (fun _ => true)
        (writeAll 2 [⟨2, false, "ALARM"⟩] (eventLogSaveToSdCard ctimeSample strftimeSample 1
          (fun _ => true) (eventLogWrite 2 1 true "ALARM" (init 2)) emptyCard).2.1)
        (eventLogSaveToSdCard ctimeSample strftimeSample 1 (fun _ => true)
          (eventLogWrite 2 1 true "ALARM" (init 2)) emptyCard).2.2).2.2
      = (eventLogSaveToSdCard ctimeSample strftimeSample 1 (fun _ => true)
          (eventLogWrite 2 1 true "ALARM" (init 2)) emptyCard).2.2 ∧
    (eventLogSaveToSdCard ctimeSample strftimeSample 3 (fun _ => true)
        (writeAll 2 [⟨2, false, "ALARM"⟩] (eventLogSaveToSdCard ctimeSample strftimeSample 1
          (fun _ => true) (eventLogWrite 2 1 true "ALARM" (init 2)) emptyCard).2.1)
        (eventLogSaveToSdCard ctimeSample strftimeSample 1 (fun _ => true)
          (eventLogWrite 2 1 true "ALARM" (init 2)) emptyCard).2.2).2.1.serial
      = (writeAll 2 [⟨2, false, "ALARM"⟩] (eventLogSaveToSdCard ctimeSample strftimeSample 1
          (fun _ => true) (eventLogWrite 2 1 true "ALARM" (init 2)) emptyCard).2.1).serial
        ++ ["File successfully written\r\n\r\n"] :=
  C6_stale_flag_reports_success 2 ctimeSample strftimeSample 1 3 (fun _ => true) (fun _ => true)
    ⟨1, true, "ALARM"⟩ [⟨2, false, "ALARM"⟩] emptyCard (by decide) (by decide) rfl

/-! ## Reading back from the card -/

/-- C9: for every program state, whatever `eventRead` holds, and every storage
that stays the same, the second of two consecutive calls of
`eventLogReadFileFromSdCard` returns what the first returned, prints what the
first printed, and leaves `eventRead` as the first left it. -/
theorem C9_read_twice_same (strLen : Nat) (sd : SdRoot) (st : State) :
    (eventLogReadFileFromSdCard strLen sd (eventLogReadFileFromSdCard strLen sd st).2).1
      = (eventLogReadFileFromSdCard strLen sd st).1 ∧
    (eventLogReadFileFromSdCard strLen sd (eventLogReadFileFromSdCard strLen sd st).2).2.eventRead
      = (eventLogReadFileFromSdCard strLen sd st).2.eventRead ∧
    (eventLogReadFileFromSdCard strLen sd
        (eventLogReadFileFromSdCard strLen sd st).2).2.serial.drop
        (eventLogReadFileFromSdCard strLen sd st).2.serial.length
      = (eventLogReadFileFromSdCard strLen sd st).2.serial.drop st.serial.length := by
  cases hdir : sd.opendir with
  | none =>
    simp [eventLogReadFileFromSdCard, hdir, pcSerialComStringWrite]
  | some entries =>
    simp only [eventLogReadFileFromSdCard, hdir, scanEntries_eventRead, scanEntries_serial,
      List.drop_left]
    refine ⟨?_, ?_, trivial⟩ <;>
      cases st.eventRead <;> cases entries.any (entryLoads strLen sd) <;> rfl

end EventLog
